import Mathlib

/-!
Shallow embedding of the `crater` repository's command-expansion engine
(`src/bmk.rs`) and workspace configuration layer (`rustwide/src/workspace.rs`),
with theorems about their behaviour.

Conventions of the embedding:
* Rust `Result<T>` (with the `errors`/`failure` error types) becomes
  `Except E T` with an abstract error type `E`.
* The engine's `loop` is modelled with an explicit fuel parameter: `none`
  means the fuel ran out before the loop finished (the Rust loop gives no
  termination guarantee); `some r` means the loop finished with result `r`.
* The work queue is a Rust `Vec` used as a stack: `pop` removes the LAST
  element, and `extend(xs.rev())` appends the reversed list at the end.  The
  Lean model keeps the `Vec` order literally: the top of the stack is the
  last element of the list (`List.getLast?` / `List.dropLast`).
-/

namespace Bmk

/-- The `Process<S>` trait of `src/bmk.rs`: executing a command consumes the
state and returns an updated state together with the follow-up commands. -/
structure Process (S C E : Type) where
  process : C → S → Except E (S × List C)

/-- The `Arguable` trait of `src/bmk.rs`: conversion of a command to and from
a command-line token sequence.  Note that `to_args` is total (it returns
`Vec<String>`, not a `Result`), while `from_args` may fail. -/
structure Arguable (C E : Type) where
  from_args : List String → Except E C
  to_args : C → List String

variable {S C E : Type}

/-- The body of `run`'s `loop`, with explicit fuel.  Each iteration pops the
most recently pushed command (the last element of the `Vec`), round-trips it
through `to_args`/`from_args`, executes the round-tripped command, and pushes
the follow-up commands in reverse order onto the end of the `Vec`. -/
def runLoop (P : Process S C E) (A : Arguable C E) :
    Nat → S → List C → Option (Except E S)
  | 0, _, _ => none
  | fuel + 1, state, cmds =>
    match cmds.getLast? with
    | none => some (.ok state)
    | some cmd =>
      -- Round trip through command line argument parsing.
      match A.from_args (A.to_args cmd) with
      | .error e => some (.error e)
      | .ok cmd =>
        match P.process cmd state with
        | .error e => some (.error e)
        | .ok (state_, new_cmds) =>
          -- cmds.extend(new_cmds.into_iter().rev())
          runLoop P A fuel state_ (cmds.dropLast ++ new_cmds.reverse)

/-- `run` of `src/bmk.rs`: seed the work queue with the initial command and
drain it. -/
def run (P : Process S C E) (A : Arguable C E) (fuel : Nat) (state : S)
    (cmd : C) : Option (Except E S) :=
  runLoop P A fuel state [cmd]

/-- Instrumented variant of `runLoop` that additionally records, in order, the
round-tripped commands handed to `process`.  It performs exactly the same
steps as `runLoop`; the extra component is a pure observer. -/
def runTraceLoop (P : Process S C E) (A : Arguable C E) :
    Nat → S → List C → List C → Option (Except E S × List C)
  | 0, _, _, _ => none
  | fuel + 1, state, cmds, tr =>
    match cmds.getLast? with
    | none => some (.ok state, tr)
    | some cmd =>
      match A.from_args (A.to_args cmd) with
      | .error e => some (.error e, tr)
      | .ok cmd =>
        match P.process cmd state with
        | .error e => some (.error e, tr ++ [cmd])
        | .ok (state_, new_cmds) =>
          runTraceLoop P A fuel state_ (cmds.dropLast ++ new_cmds.reverse)
            (tr ++ [cmd])

/-- Instrumented `run`: the final result together with the execution trace. -/
def runTrace (P : Process S C E) (A : Arguable C E) (fuel : Nat) (state : S)
    (cmd : C) : Option (Except E S × List C) :=
  runTraceLoop P A fuel state [cmd] []

end Bmk

section ConcreteInstances
open Bmk

inductive BCmd | a | b | c | d | e
deriving DecidableEq, Repr

def bmkToArgs : BCmd → List String
  | .a => ["a"]
  | .b => ["b"]
  | .c => ["c"]
  | .d => ["d"]
  | .e => ["e"]

def bmkFromArgs : List String → Except Nat BCmd
  | ["a"] => .ok .a
  | ["b"] => .ok .b
  | ["c"] => .ok .c
  | ["d"] => .ok .d
  | ["e"] => .ok .e
  | _ => .error 0

def bmkArguable : Arguable BCmd Nat := ⟨bmkFromArgs, bmkToArgs⟩

/-- A command family realizing the spec's depth-first example
(`a -> [b, c]`, `b -> [d]`, `c -> []`, `d -> []`) over `Nat` states that
count the executions performed. -/
def bmkProcess : Process Nat BCmd Nat where
  process cmd s :=
    match cmd with
    | .a => .ok (s + 1, [.b, .c])
    | .b => .ok (s + 1, [.d])
    | .c => .ok (s + 1, [])
    | .d => .ok (s + 1, [])
    | .e => .ok (s + 1, [])

/-- A command family where every command is a no-op (returns the state
unchanged, emits no follow-ups). -/
def noopProcess : Process Nat BCmd Nat where
  process _ s := .ok (s, [])

/-- A command family realizing the spec's fail-fast example: the initial
command expands into four independent commands, of which the third fails. -/
def failProcess : Process Nat BCmd Nat where
  process cmd s :=
    match cmd with
    | .a => .ok (s + 1, [.b, .c, .d, .e])
    | .b => .ok (s + 1, [])
    | .c => .ok (s + 1, [])
    | .d => .error 42
    | .e => .ok (s + 1, [])

/-- An `Arguable` instance whose `from_args` always fails, for exercising the
round-trip failure path. -/
def badArguable : Arguable BCmd Nat := ⟨fun _ => .error 7, bmkToArgs⟩

/-- An `Arguable` instance whose serialization is lossy: every command is
serialized to the same token list, which parses back to `BCmd.a`. -/
def lossyArguable : Arguable BCmd Nat :=
  ⟨fun args => match args with
    | ["x"] => .ok .a
    | _ => .error 0,
   fun _ => ["x"]⟩

end ConcreteInstances

namespace Rustwide

/-- A filesystem path, modelled as its list of components; `PathBuf::join`
with a single relative component appends that component. -/
abbrev PathBuf := List String

/-- `Path::join` / `PathBuf::join` for a single relative component. -/
def PathBuf.join (p : PathBuf) (component : String) : PathBuf :=
  p ++ [component]

/-- `std::time::Duration`, modelled at second granularity (the only
constructor the source uses is `Duration::from_secs`). -/
structure Duration where
  secs : Nat
deriving DecidableEq, Repr

/-- `Duration::from_secs`. -/
def Duration.from_secs (s : Nat) : Duration := ⟨s⟩

/-- Errors of workspace construction (`failure::Error`), restricted to the
cases `workspace.rs` can produce. -/
inductive WsError
  | createDirFailed (path : PathBuf)
deriving DecidableEq, Repr

/-- Modelled from the spec: `SandboxImage` lives in the repository's `cmd`
module, which is not under the provided sources.  The spec treats it as an
opaque resolved image reference, so it is modelled as a wrapper around the
image identifier. -/
structure SandboxImage where
  name : String
deriving DecidableEq, Repr

/-- Modelled from the spec: `SandboxImage::remote` (in the missing `cmd`
module) resolves an image reference from its identifier; the spec describes
no failure mode for the built-in default identifiers, so it is modelled as
always succeeding with the wrapped name. -/
def SandboxImage.remote (name : String) : Except WsError SandboxImage :=
  .ok ⟨name⟩

/-- `DEFAULT_SANDBOX_IMAGE`: the source selects one of two string constants
with `cfg(windows)` at compile time; the model makes the platform an explicit
`windows` flag. -/
def DEFAULT_SANDBOX_IMAGE (windows : Bool) : String :=
  if windows then "rustops/crates-build-env-windows" else "rustops/crates-build-env"

/-- `DEFAULT_COMMAND_TIMEOUT`: 15 minutes. -/
def DEFAULT_COMMAND_TIMEOUT : Option Duration :=
  some (Duration.from_secs (15 * 60))

/-- `DEFAULT_COMMAND_NO_OUTPUT_TIMEOUT`: disabled. -/
def DEFAULT_COMMAND_NO_OUTPUT_TIMEOUT : Option Duration := none

/-- The `WorkspaceBuilder` struct. -/
structure WorkspaceBuilder where
  path : PathBuf
  sandbox_image : Option SandboxImage
  command_timeout : Option Duration
  command_no_output_timeout : Option Duration
deriving DecidableEq, Repr

/-- The `Workspace` struct. -/
structure Workspace where
  path : PathBuf
  sandbox_image : SandboxImage
  command_timeout : Option Duration
  command_no_output_timeout : Option Duration
deriving DecidableEq, Repr

/-- `WorkspaceBuilder::new`. -/
def WorkspaceBuilder.new (path : PathBuf) : WorkspaceBuilder where
  path := path
  sandbox_image := none
  command_timeout := DEFAULT_COMMAND_TIMEOUT
  command_no_output_timeout := DEFAULT_COMMAND_NO_OUTPUT_TIMEOUT

/-- The builder method `WorkspaceBuilder::sandbox_image` (renamed with a
`set_` prefix because in Lean the field projection already takes that name). -/
def WorkspaceBuilder.set_sandbox_image (b : WorkspaceBuilder)
    (image : SandboxImage) : WorkspaceBuilder :=
  { b with sandbox_image := some image }

/-- The builder method `WorkspaceBuilder::command_timeout` (renamed with a
`set_` prefix because in Lean the field projection already takes that name). -/
def WorkspaceBuilder.set_command_timeout (b : WorkspaceBuilder)
    (timeout : Option Duration) : WorkspaceBuilder :=
  { b with command_timeout := timeout }

/-- The builder method `WorkspaceBuilder::command_no_output_timeout` (renamed
with a `set_` prefix, as above). -/
def WorkspaceBuilder.set_command_no_output_timeout (b : WorkspaceBuilder)
    (timeout : Option Duration) : WorkspaceBuilder :=
  { b with command_no_output_timeout := timeout }

/-- `WorkspaceBuilder::init`.  Two aspects of the source are not pure code
under `src/`: `std::fs::create_dir_all` is I/O, modelled by the
`create_dir_ok` flag (`false` makes `init` fail exactly as the `?` on the
`with_context` result would), and `cfg(windows)` is modelled by the `windows`
flag threaded into `DEFAULT_SANDBOX_IMAGE`. -/
def WorkspaceBuilder.init (b : WorkspaceBuilder) (windows : Bool)
    (create_dir_ok : Bool) : Except WsError Workspace :=
  if create_dir_ok then
    match (match b.sandbox_image with
           | some img => Except.ok img
           | none => SandboxImage.remote (DEFAULT_SANDBOX_IMAGE windows)) with
    | .error e => .error e
    | .ok sandbox_image =>
      .ok { path := b.path
            sandbox_image := sandbox_image
            command_timeout := b.command_timeout
            command_no_output_timeout := b.command_no_output_timeout }
  else
    .error (.createDirFailed b.path)

/-- `Workspace::cargo_home`. -/
def Workspace.cargo_home (w : Workspace) : PathBuf :=
  (w.path.join "local").join "cargo-home"

/-- `Workspace::rustup_home`. -/
def Workspace.rustup_home (w : Workspace) : PathBuf :=
  (w.path.join "local").join "rustup-home"

/-- `Workspace::default_command_timeout`. -/
def Workspace.default_command_timeout (w : Workspace) : Option Duration :=
  w.command_timeout

/-- `Workspace::default_command_no_output_timeout`. -/
def Workspace.default_command_no_output_timeout (w : Workspace) :
    Option Duration :=
  w.command_no_output_timeout

end Rustwide

namespace Bmk

variable {S C E : Type}

/-- The trace component of `runTraceLoop` is an observer: dropping it yields
exactly `runLoop`. -/
theorem runTraceLoop_fst (P : Process S C E) (A : Arguable C E) :
    ∀ (fuel : Nat) (state : S) (cmds tr : List C),
      (runTraceLoop P A fuel state cmds tr).map Prod.fst =
        runLoop P A fuel state cmds := by
  intro fuel
  induction fuel with
  | zero => intro state cmds tr; rfl
  | succ n ih =>
    intro state cmds tr
    rw [runTraceLoop, runLoop]
    cases hl : cmds.getLast? with
    | none => rfl
    | some cmd =>
      cases hf : A.from_args (A.to_args cmd) with
      | error e => simp [hf]
      | ok cmd2 =>
        cases hp : P.process cmd2 state with
        | error e => simp [hf, hp]
        | ok pr =>
          obtain ⟨state_, new_cmds⟩ := pr
          simp only [hf, hp]
          exact ih state_ _ _

/-- The trace only grows: the input trace is a prefix of the output trace. -/
theorem runTraceLoop_trace_prefix (P : Process S C E) (A : Arguable C E) :
    ∀ (fuel : Nat) (state : S) (cmds tr : List C) (r : Except E S)
      (tr' : List C),
      runTraceLoop P A fuel state cmds tr = some (r, tr') → tr <+: tr' := by
  intro fuel
  induction fuel with
  | zero => intro state cmds tr r tr' h; simp [runTraceLoop] at h
  | succ n ih =>
    intro state cmds tr r tr' h
    rw [runTraceLoop] at h
    cases hl : cmds.getLast? with
    | none =>
      rw [hl] at h
      simp at h
      simp [h]
    | some cmd =>
      rw [hl] at h
      cases hf : A.from_args (A.to_args cmd) with
      | error e =>
        simp [hf] at h
        simp [h]
      | ok cmd2 =>
        cases hp : P.process cmd2 state with
        | error e =>
          simp [hf, hp] at h
          rw [← h.2]
          exact List.prefix_append tr [cmd2]
        | ok pr =>
          obtain ⟨state_, new_cmds⟩ := pr
          simp only [hf, hp] at h
          have := ih state_ _ _ _ _ h
          exact List.IsPrefix.trans (List.prefix_append tr [cmd2]) this

end Bmk

section EngineTheorems
open Bmk

/-- C1: depth-first ordering of the run loop.  For any engine and any
commands `a`, `b`, `c`, `d` whose round-trips are the identity, if executing
`a` yields follow-ups `[b, c]`, executing `b` yields `[d]`, and `c` and `d`
yield no follow-ups, then `run` starting from `a` executes the commands in
exactly the order `a, b, d, c` (witnessed by the execution trace) and
returns the state produced by the last execution. -/
theorem run_depth_first_order {S C E : Type} (P : Process S C E)
    (A : Arguable C E) (a b c d : C) (s0 s1 s2 s3 s4 : S)
    (ha : A.from_args (A.to_args a) = .ok a)
    (hb : A.from_args (A.to_args b) = .ok b)
    (hc : A.from_args (A.to_args c) = .ok c)
    (hd : A.from_args (A.to_args d) = .ok d)
    (pa : P.process a s0 = .ok (s1, [b, c]))
    (pb : P.process b s1 = .ok (s2, [d]))
    (pd : P.process d s2 = .ok (s3, []))
    (pc : P.process c s3 = .ok (s4, []))
    (fuel : Nat) :
    runTrace P A (fuel + 5) s0 a = some (.ok s4, [a, b, d, c]) ∧
    run P A (fuel + 5) s0 a = some (.ok s4) := by
  have htr : runTrace P A (fuel + 5) s0 a = some (.ok s4, [a, b, d, c]) := by
    rw [runTrace]
    calc runTraceLoop P A (fuel + 5) s0 [a] []
        = runTraceLoop P A (fuel + 4) s1 [c, b] [a] := by
          rw [show fuel + 5 = (fuel + 4) + 1 from rfl, runTraceLoop]
          simp [ha, pa]
      _ = runTraceLoop P A (fuel + 3) s2 [c, d] [a, b] := by
          rw [show fuel + 4 = (fuel + 3) + 1 from rfl, runTraceLoop]
          simp [hb, pb]
      _ = runTraceLoop P A (fuel + 2) s3 [c] [a, b, d] := by
          rw [show fuel + 3 = (fuel + 2) + 1 from rfl, runTraceLoop]
          simp [hd, pd]
      _ = runTraceLoop P A (fuel + 1) s4 [] [a, b, d, c] := by
          rw [show fuel + 2 = (fuel + 1) + 1 from rfl, runTraceLoop]
          simp [hc, pc]
      _ = some (.ok s4, [a, b, d, c]) := by
          rw [runTraceLoop]
          simp
  refine ⟨htr, ?_⟩
  have h2 := runTraceLoop_fst P A (fuel + 5) s0 [a] []
  rw [run, ← h2]
  have h3 : runTraceLoop P A (fuel + 5) s0 [a] [] =
      some (.ok s4, [a, b, d, c]) := htr
  rw [h3]
  rfl

/-- C1 witness: the concrete four-command family over `Nat` states realizes
the order `a, b, d, c`. -/
theorem run_depth_first_order_witness :
    runTrace bmkProcess bmkArguable 5 0 BCmd.a =
      some (.ok 4, [.a, .b, .d, .c]) ∧
    run bmkProcess bmkArguable 5 0 BCmd.a = some (.ok 4) :=
  run_depth_first_order bmkProcess bmkArguable .a .b .c .d 0 1 2 3 4
    rfl rfl rfl rfl rfl rfl rfl rfl 0

/-- C2: serialization round-trip before every execution.  Whenever the loop
pops a command `cmd` from the work queue, it first round-trips it through
`to_args`/`from_args`; the command that is then executed (handed to
`process` and recorded in the trace) is the round-tripped one, and the whole
run fails with the round-trip's error if it fails. -/
theorem run_round_trip_each_pop {S C E : Type} (P : Process S C E)
    (A : Arguable C E) (fuel : Nat) (state : S) (cmds tr : List C) (cmd : C)
    (hpop : cmds.getLast? = some cmd) :
    runLoop P A (fuel + 1) state cmds =
      (match A.from_args (A.to_args cmd) with
       | .error e => some (.error e)
       | .ok cmd2 =>
         match P.process cmd2 state with
         | .error e => some (.error e)
         | .ok (state_, new_cmds) =>
           runLoop P A fuel state_ (cmds.dropLast ++ new_cmds.reverse)) ∧
    runTraceLoop P A (fuel + 1) state cmds tr =
      (match A.from_args (A.to_args cmd) with
       | .error e => some (.error e, tr)
       | .ok cmd2 =>
         match P.process cmd2 state with
         | .error e => some (.error e, tr ++ [cmd2])
         | .ok (state_, new_cmds) =>
           runTraceLoop P A fuel state_ (cmds.dropLast ++ new_cmds.reverse)
             (tr ++ [cmd2])) := by
  constructor
  · rw [runLoop, hpop]
  · rw [runTraceLoop, hpop]

/-- C2 witness: one concrete loop step pops `BCmd.c`, round-trips it, and
executes the round-tripped command. -/
theorem run_round_trip_each_pop_witness :
    runLoop bmkProcess bmkArguable 2 0 [BCmd.c] =
      runLoop bmkProcess bmkArguable 1 1 [] ∧
    runTraceLoop bmkProcess bmkArguable 2 0 [BCmd.c] [] =
      runTraceLoop bmkProcess bmkArguable 1 1 [] [BCmd.c] :=
  run_round_trip_each_pop bmkProcess bmkArguable 1 0 [BCmd.c] [] .c rfl

/-- C3: fail-fast with no partial state, for every failing run.  At any
configuration the loop can be in — any state, any queue contents, any
commands already executed (the trace `tr`), any remaining fuel — if the
popped command's round-trip or its execution returns an error, the loop
returns exactly that error (an `Except.error`, hence no state value is
returned).  The returned trace is unchanged (round-trip failure) or extended
only by the failing command (execution failure), so every command still on
the queue — including ones queued after the failing one — is never executed,
whatever the queue holds. -/
theorem run_fail_fast {S C E : Type} (P : Process S C E) (A : Arguable C E)
    (fuel : Nat) (s : S) (cmds tr : List C) (cmd cmd2 : C) (e : E)
    (hpop : cmds.getLast? = some cmd) :
    (A.from_args (A.to_args cmd) = .error e →
      runLoop P A (fuel + 1) s cmds = some (.error e) ∧
      runTraceLoop P A (fuel + 1) s cmds tr = some (.error e, tr)) ∧
    (A.from_args (A.to_args cmd) = .ok cmd2 →
      P.process cmd2 s = .error e →
      runLoop P A (fuel + 1) s cmds = some (.error e) ∧
      runTraceLoop P A (fuel + 1) s cmds tr =
        some (.error e, tr ++ [cmd2])) := by
  constructor
  · intro hf
    constructor
    · rw [runLoop, hpop]
      simp [hf]
    · rw [runTraceLoop, hpop]
      simp [hf]
  · intro hok hp
    constructor
    · rw [runLoop, hpop]
      simp [hok, hp]
    · rw [runTraceLoop, hpop]
      simp [hok, hp]

/-- C3 witness: the loop configuration that the concrete failing family
reaches just before its third expanded command fails — state `3`, queue
`[.e, .d]`, trace `[.a, .b, .c]` — aborts with exactly the execution error
`42`, leaving `BCmd.e` unexecuted. -/
theorem run_fail_fast_witness :
    (bmkArguable.from_args (bmkArguable.to_args BCmd.d) = .error 42 →
      runLoop failProcess bmkArguable 8 3 [BCmd.e, BCmd.d] =
        some (.error 42) ∧
      runTraceLoop failProcess bmkArguable 8 3 [BCmd.e, BCmd.d]
        [BCmd.a, BCmd.b, BCmd.c] =
        some (.error 42, [BCmd.a, BCmd.b, BCmd.c])) ∧
    (bmkArguable.from_args (bmkArguable.to_args BCmd.d) = .ok BCmd.d →
      failProcess.process BCmd.d 3 = .error 42 →
      runLoop failProcess bmkArguable 8 3 [BCmd.e, BCmd.d] =
        some (.error 42) ∧
      runTraceLoop failProcess bmkArguable 8 3 [BCmd.e, BCmd.d]
        [BCmd.a, BCmd.b, BCmd.c] =
        some (.error 42, [BCmd.a, BCmd.b, BCmd.c, BCmd.d])) :=
  run_fail_fast failProcess bmkArguable 7 3 [BCmd.e, BCmd.d]
    [BCmd.a, BCmd.b, BCmd.c] BCmd.d BCmd.d 42 rfl

/-- C4: empty expansion terminates.  If the initial command round-trips to
`cmd2` and executing `cmd2` succeeds with no follow-up commands, the run
terminates after that single execution (the trace is `[cmd2]`), returning
the state that the execution produced. -/
theorem run_empty_expansion {S C E : Type} (P : Process S C E)
    (A : Arguable C E) (cmd cmd2 : C) (s s' : S)
    (hrt : A.from_args (A.to_args cmd) = .ok cmd2)
    (hp : P.process cmd2 s = .ok (s', []))
    (fuel : Nat) :
    run P A (fuel + 2) s cmd = some (.ok s') ∧
    runTrace P A (fuel + 2) s cmd = some (.ok s', [cmd2]) := by
  constructor
  · rw [run]
    calc runLoop P A (fuel + 2) s [cmd]
        = runLoop P A (fuel + 1) s' [] := by
          rw [show fuel + 2 = (fuel + 1) + 1 from rfl, runLoop]
          simp [hrt, hp]
      _ = some (.ok s') := by rw [runLoop]; simp
  · rw [runTrace]
    calc runTraceLoop P A (fuel + 2) s [cmd] []
        = runTraceLoop P A (fuel + 1) s' [] [cmd2] := by
          rw [show fuel + 2 = (fuel + 1) + 1 from rfl, runTraceLoop]
          simp [hrt, hp]
      _ = some (.ok s', [cmd2]) := by rw [runTraceLoop]; simp

/-- C4 witness: the concrete command `BCmd.c` emits no follow-ups, so the
run ends after its single execution with the state it produced. -/
theorem run_empty_expansion_witness :
    run bmkProcess bmkArguable 2 0 BCmd.c = some (.ok 1) ∧
    runTrace bmkProcess bmkArguable 2 0 BCmd.c = some (.ok 1, [.c]) :=
  run_empty_expansion bmkProcess bmkArguable .c .c 0 1 rfl rfl 0

/-- C5: idempotent no-op identity.  For every state `s0`, running the
engine with a command whose round-tripped execution returns the input state
unchanged and emits no follow-ups yields `Ok s0`. -/
theorem run_noop_identity {S C E : Type} (P : Process S C E)
    (A : Arguable C E) (cmd cmd2 : C)
    (hrt : A.from_args (A.to_args cmd) = .ok cmd2)
    (hp : ∀ s : S, P.process cmd2 s = .ok (s, []))
    (s0 : S) (fuel : Nat) :
    run P A (fuel + 2) s0 cmd = some (.ok s0) := by
  rw [run]
  calc runLoop P A (fuel + 2) s0 [cmd]
      = runLoop P A (fuel + 1) s0 [] := by
        rw [show fuel + 2 = (fuel + 1) + 1 from rfl, runLoop]
        simp [hrt, hp s0]
    _ = some (.ok s0) := by rw [runLoop]; simp

/-- C5 witness: a no-op command run from the state `7` returns exactly
`7`. -/
theorem run_noop_identity_witness :
    run noopProcess bmkArguable 2 7 BCmd.a = some (.ok 7) :=
  run_noop_identity noopProcess bmkArguable .a .a rfl (fun _ => rfl) 7 0

/-- C8: serialization is total, so an error observed before any command was
executed (empty trace) can only be a `from_args` error on the token
sequence that `to_args` (totally) produced for the initial command. -/
theorem run_error_before_any_execution_is_parse_error {S C E : Type}
    (P : Process S C E) (A : Arguable C E) (fuel : Nat) (s : S) (cmd : C)
    (e : E) (h : runTrace P A fuel s cmd = some (.error e, [])) :
    A.from_args (A.to_args cmd) = .error e := by
  cases fuel with
  | zero => simp [runTrace, runTraceLoop] at h
  | succ n =>
    rw [runTrace, runTraceLoop] at h
    simp at h
    cases hf : A.from_args (A.to_args cmd) with
    | error e2 =>
      rw [hf] at h
      simp at h
      rw [h]
    | ok cmd2 =>
      rw [hf] at h
      simp at h
      cases hp : P.process cmd2 s with
      | error e2 =>
        rw [hp] at h
        simp at h
      | ok pr =>
        obtain ⟨s2, nc⟩ := pr
        rw [hp] at h
        have := runTraceLoop_trace_prefix P A n s2 _ _ _ _ h
        simp at this

/-- C8 witness: with an always-failing `from_args`, the run fails before
executing anything, and the error is indeed the `from_args` error. -/
theorem run_error_before_any_execution_is_parse_error_witness :
    badArguable.from_args (badArguable.to_args BCmd.a) = .error 7 :=
  run_error_before_any_execution_is_parse_error bmkProcess badArguable
    1 0 BCmd.a 7 rfl

/-- C9: a run's behaviour depends on each command only through its token
sequence.  If two initial commands serialize to the same tokens, the run
(and even its execution trace) from any state is identical for the two. -/
theorem run_depends_only_on_tokens {S C E : Type} (P : Process S C E)
    (A : Arguable C E) (c1 c2 : C) (h : A.to_args c1 = A.to_args c2)
    (fuel : Nat) (s : S) :
    run P A fuel s c1 = run P A fuel s c2 ∧
    runTrace P A fuel s c1 = runTrace P A fuel s c2 := by
  cases fuel with
  | zero => exact ⟨rfl, rfl⟩
  | succ n =>
    constructor
    · rw [run, run, runLoop, runLoop]
      simp [h]
    · rw [runTrace, runTrace, runTraceLoop, runTraceLoop]
      simp [h]

/-- C9 witness: under a lossy serialization that maps every command to the
tokens `["x"]`, the distinct commands `BCmd.a` and `BCmd.b` produce
identical runs. -/
theorem run_depends_only_on_tokens_witness :
    run noopProcess lossyArguable 2 0 BCmd.a =
      run noopProcess lossyArguable 2 0 BCmd.b ∧
    runTrace noopProcess lossyArguable 2 0 BCmd.a =
      runTrace noopProcess lossyArguable 2 0 BCmd.b :=
  run_depends_only_on_tokens noopProcess lossyArguable .a .b rfl 2 0

end EngineTheorems

section WorkspaceTheorems
open Rustwide

/-- C6: sandbox image default and override.  On either platform, `init`
without an explicit sandbox image override resolves the platform-appropriate
default identifier (`rustops/crates-build-env`, or
`rustops/crates-build-env-windows` on Windows), while an image supplied via
the builder is used unchanged in the resulting `Workspace`. -/
theorem sandbox_image_default_and_override (windows : Bool) (path : PathBuf)
    (img : SandboxImage) :
    Except.map Workspace.sandbox_image
        ((WorkspaceBuilder.new path).init windows true) =
      .ok ⟨DEFAULT_SANDBOX_IMAGE windows⟩ ∧
    Except.map Workspace.sandbox_image
        (((WorkspaceBuilder.new path).set_sandbox_image img).init
          windows true) = .ok img := by
  constructor <;>
    simp [WorkspaceBuilder.new, WorkspaceBuilder.set_sandbox_image,
      WorkspaceBuilder.init, SandboxImage.remote, Except.map]

/-- C7: derived tool-home paths.  For every workspace, `cargo_home` and
`rustup_home` are two distinct subdirectories of the `"local"` directory
under the base path; being pure accessors, they leave the `path` field (and
the workspace) untouched, and the base path stays recoverable as a prefix. -/
theorem tool_homes_distinct_under_local (w : Workspace) :
    w.cargo_home = (w.path.join "local").join "cargo-home" ∧
    w.rustup_home = (w.path.join "local").join "rustup-home" ∧
    w.cargo_home ≠ w.rustup_home ∧
    w.path.join "local" <+: w.cargo_home ∧
    w.path.join "local" <+: w.rustup_home ∧
    w.path <+: w.path.join "local" := by
  refine ⟨rfl, rfl, ?_, ?_, ?_, ?_⟩
  · intro h
    simp [Workspace.cargo_home, Workspace.rustup_home, PathBuf.join] at h
  · exact List.prefix_append _ _
  · exact List.prefix_append _ _
  · exact List.prefix_append _ _

/-- C10: builder timeout defaults.  A builder fresh from `new` has its
default command timeout set to 15 minutes and its default no-output timeout
disabled, and a workspace built from it without calling the setters reports
exactly these values from the two accessors. -/
theorem builder_default_timeouts (path : PathBuf) (windows : Bool) :
    (WorkspaceBuilder.new path).command_timeout =
      some (Duration.from_secs (15 * 60)) ∧
    (WorkspaceBuilder.new path).command_no_output_timeout = none ∧
    Except.map Workspace.default_command_timeout
        ((WorkspaceBuilder.new path).init windows true) =
      .ok (some (Duration.from_secs (15 * 60))) ∧
    Except.map Workspace.default_command_no_output_timeout
        ((WorkspaceBuilder.new path).init windows true) = .ok none := by
  refine ⟨rfl, rfl, ?_, ?_⟩ <;>
    simp [WorkspaceBuilder.new, WorkspaceBuilder.init, SandboxImage.remote,
      Except.map, Workspace.default_command_timeout,
      Workspace.default_command_no_output_timeout,
      DEFAULT_COMMAND_TIMEOUT, DEFAULT_COMMAND_NO_OUTPUT_TIMEOUT]

end WorkspaceTheorems
